import Mathlib

/-
Verification development for the phd2client repository (python/src/phd2client/guider.py).

Shallow embedding conventions:
- Python floats are modelled as exact rationals (ℚ); math.sqrt is modelled as
  Real.sqrt on the cast to ℝ.
- JSON values are modelled by the inductive type JValue; Python None used as the
  "params is None" sentinel of _make_jsonrpc coincides with JSON null (JValue.null).
- The mutable Guider object is modelled as the record GuiderState; each method of
  the source that mutates the object becomes a function from state to state.
- The blocking RPC call is modelled by passing the outcome of the round trip
  (success value or error message) as an explicit argument; the request line the
  method writes to the socket is returned so that "nothing was sent" is expressible.
- Socket reads are modelled by the byte chunks delivered by successive recv calls
  (bytes as ℕ); socket writes by the list of byte counts accepted by successive
  send calls.
-/

/-- SettleProgress from guider.py lines 14-26, with the dataclass field defaults. -/
structure SettleProgress where
  Done : Bool := false
  Distance : ℚ := 0
  SettlePx : ℚ := 0
  Time : ℚ := 0
  SettleTime : ℚ := 0
  Status : ℤ := 0
  Error : Option String := none
deriving DecidableEq

/-- GuideStats from guider.py lines 29-39. The rms fields hold real numbers since
they are square roots of rational variances. -/
structure GuideStats where
  rms_tot : ℝ := 0
  rms_ra : ℝ := 0
  rms_dec : ℝ := 0
  peak_ra : ℝ := 0
  peak_dec : ℝ := 0

/-- A freshly constructed GuideStats() with every field zero. -/
def GuideStats.init : GuideStats :=
  { rms_tot := 0, rms_ra := 0, rms_dec := 0, peak_ra := 0, peak_dec := 0 }

/-- SingleFrameResult from guider.py lines 175-179. -/
structure SingleFrameResult where
  success : Bool
  error_message : Option String
  path : Option String
deriving DecidableEq

/-- Subframe from guider.py lines 167-172. -/
structure Subframe where
  x : ℤ
  y : ℤ
  width : ℤ
  height : ℤ
deriving DecidableEq

/-- The running-statistics accumulator _Accum from guider.py lines 55-85.
Fields: sample count n, running mean a, running sum of squared deviations q,
peak absolute value peak. -/
structure _Accum where
  n : ℕ
  a : ℚ
  q : ℚ
  peak : ℚ
deriving DecidableEq

/-- The state produced by _Accum.Reset (and by __init__, which calls Reset):
n = 0 and a = q = peak = 0 (guider.py lines 62-67). -/
def _Accum.init : _Accum := ⟨0, 0, 0, 0⟩

/-- Reset from guider.py lines 65-67: zeroes every field. -/
def _Accum.Reset (_ : _Accum) : _Accum := _Accum.init

/-- Add from guider.py lines 69-76 (Welford update). -/
def _Accum.Add (b : _Accum) (x : ℚ) : _Accum :=
  let ax := |x|
  let peak := if ax > b.peak then ax else b.peak
  let n := b.n + 1
  let d := x - b.a
  let a := b.a + d / (n : ℚ)
  let q := b.q + (x - a) * d
  ⟨n, a, q, peak⟩

/-- Mean from guider.py lines 78-79. -/
def _Accum.Mean (b : _Accum) : ℚ := b.a

/-- Stdev from guider.py lines 81-82: sqrt(q / n) when n >= 1, else 0. -/
noncomputable def _Accum.Stdev (b : _Accum) : ℝ :=
  if b.n ≥ 1 then Real.sqrt ((b.q / (b.n : ℚ) : ℚ) : ℝ) else 0

/-- Peak from guider.py lines 84-85. -/
def _Accum.Peak (b : _Accum) : ℚ := b.peak

/-- Folding Add over a list of samples, starting from a given accumulator. -/
def _Accum.addList (b : _Accum) (xs : List ℚ) : _Accum := xs.foldl _Accum.Add b

/-- JSON values (the subset of Python values that travel through json.dumps /
json.loads in guider.py). -/
inductive JValue where
  | null : JValue
  | bool (b : Bool) : JValue
  | num (q : ℚ) : JValue
  | str (s : String) : JValue
  | arr (elts : List JValue) : JValue
  | obj (entries : List (String × JValue)) : JValue

/-- Lookup of a key in an association list of JSON object entries (first match). -/
def lookupKey (k : String) : List (String × JValue) → Option JValue
  | [] => none
  | (k2, v) :: rest => if k2 = k then some v else lookupKey k rest

/-- Field access on a JSON object; none on non-objects and missing keys. -/
def JValue.get (j : JValue) (k : String) : Option JValue :=
  match j with
  | .obj kvs => lookupKey k kvs
  | _ => none

/-- The Python membership test (codice "k in j") on a parsed JSON object. -/
def JValue.hasKey (j : JValue) (k : String) : Bool := (j.get k).isSome

/-- True exactly for the values where isinstance(params, (list, dict)) holds. -/
def JValue.isContainer : JValue → Bool
  | .arr _ => true
  | .obj _ => true
  | _ => false

/-- The server events consumed by Guider._handle_event (guider.py lines 240-320),
with the fields the handler reads from each. Other is any unhandled event. -/
inductive Event where
  | AppState (st : String) : Event
  | Version (version subver : String) : Event
  | StartGuiding : Event
  | GuideStep (raDistanceRaw decDistanceRaw avgDist : ℚ) : Event
  | SettleBegin : Event
  | Settling (distance time settleTime : ℚ) : Event
  | SettleDone (status : ℤ) (error : Option String) : Event
  | Paused : Event
  | StartCalibration : Event
  | LoopingExposures : Event
  | LoopingExposuresStopped : Event
  | GuidingStopped : Event
  | StarLost (avgDist : ℚ) : Event
  | SingleFrameComplete (success : Bool) (error path : Option String) : Event
  | Other : Event
deriving DecidableEq

/-- The observable state of a Guider object (guider.py lines 182-206): the derived
state fields, the accumulators, and the pending-response slot. -/
structure GuiderState where
  AppState : String
  AvgDist : ℚ
  Version : String
  PHDSubver : String
  accum_active : Bool
  settle_px : ℚ
  accum_ra : _Accum
  accum_dec : _Accum
  Stats : GuideStats
  Settle : Option SettleProgress
  single_frame : Option SingleFrameResult
  response : Option JValue

/-- The field values a fresh Guider object carries (guider.py lines 196-206). -/
def GuiderState.init : GuiderState :=
  { AppState := ""
    AvgDist := 0
    Version := ""
    PHDSubver := ""
    accum_active := false
    settle_px := 0
    accum_ra := _Accum.init
    accum_dec := _Accum.init
    Stats := GuideStats.init
    Settle := none
    single_frame := none
    response := none }

/-- Guider._is_guiding from guider.py lines 227-229. -/
def _is_guiding (st : String) : Bool := st = "Guiding" || st = "LostLock"

/-- Guider._accum_get_stats from guider.py lines 231-238: snapshot the two
accumulators into a fresh GuideStats (rms_tot keeps its default 0). -/
noncomputable def _accum_get_stats (ra dec : _Accum) : GuideStats :=
  { rms_tot := 0
    rms_ra := ra.Stdev
    rms_dec := dec.Stdev
    peak_ra := (ra.Peak : ℝ)
    peak_dec := (dec.Peak : ℝ) }

/-- Guider._handle_event from guider.py lines 240-320, as a state transition. -/
noncomputable def handle_event (st : GuiderState) (ev : Event) : GuiderState :=
  match ev with
  | .AppState s =>
      { st with AppState := s, AvgDist := if _is_guiding s then 0 else st.AvgDist }
  | .Version v sub => { st with Version := v, PHDSubver := sub }
  | .StartGuiding =>
      let ra := st.accum_ra.Reset
      let dec := st.accum_dec.Reset
      { st with accum_active := true, accum_ra := ra, accum_dec := dec
                Stats := _accum_get_stats ra dec }
  | .GuideStep raRaw decRaw avg =>
      if st.accum_active then
        let ra := st.accum_ra.Add raRaw
        let dec := st.accum_dec.Add decRaw
        { st with accum_ra := ra, accum_dec := dec
                  AppState := "Guiding", AvgDist := avg
                  Stats := _accum_get_stats ra dec }
      else
        { st with AppState := "Guiding", AvgDist := avg }
  | .SettleBegin => { st with accum_active := false }
  | .Settling dist t stime =>
      { st with Settle := some { Done := false, Distance := dist
                                 SettlePx := st.settle_px, Time := t
                                 SettleTime := stime, Status := 0, Error := none } }
  | .SettleDone status err =>
      let ra := st.accum_ra.Reset
      let dec := st.accum_dec.Reset
      { st with accum_active := true, accum_ra := ra, accum_dec := dec
                Stats := _accum_get_stats ra dec
                Settle := some { Done := true, Status := status, Error := err } }
  | .Paused => { st with AppState := "Paused" }
  | .StartCalibration => { st with AppState := "Calibrating" }
  | .LoopingExposures => { st with AppState := "Looping" }
  | .LoopingExposuresStopped => { st with AppState := "Stopped" }
  | .GuidingStopped => { st with AppState := "Stopped" }
  | .StarLost avg => { st with AppState := "LostLock", AvgDist := avg }
  | .SingleFrameComplete succ err path =>
      { st with single_frame := some ⟨succ, err, path⟩ }
  | .Other => st

/-- The reader task applied to a whole sequence of events, from the fresh state. -/
noncomputable def processEvents (evs : List Event) : GuiderState :=
  evs.foldl handle_event GuiderState.init

/-- Guider._make_jsonrpc from guider.py lines 378-387, at the level of the JSON
object built before serialization. The Python sentinel params=None and JSON null
coincide (JValue.null): the params field is omitted; a list or dict is used
verbatim; any other single value is wrapped in a one-element array. -/
def _make_jsonrpc (method : String) (params : JValue) : JValue :=
  match params with
  | .null => .obj [("method", .str method), ("id", .num 1)]
  | .arr xs => .obj [("method", .str method), ("id", .num 1), ("params", .arr xs)]
  | .obj kvs => .obj [("method", .str method), ("id", .num 1), ("params", .obj kvs)]
  | p => .obj [("method", .str method), ("id", .num 1), ("params", .arr [p])]

/-- Guider.CheckSettling from guider.py lines 522-542 (after the connection
check): either the NotSettling error, or the returned SettleProgress together
with the state left behind. -/
def CheckSettling (st : GuiderState) : Except String (SettleProgress × GuiderState) :=
  match st.Settle with
  | none => .error "not settling"
  | some sp =>
    if sp.Done then
      .ok ({ Done := true, Status := sp.Status, Error := sp.Error },
           { st with Settle := none })
    else
      .ok ({ Done := false, Distance := sp.Distance, SettlePx := st.settle_px
             Time := sp.Time, SettleTime := sp.SettleTime }, st)

/-- The guard of Guide and Dither (guider.py lines 436 and 476): blocked when a
SettleProgress is present and not Done. -/
def settleBlocked : Option SettleProgress → Bool
  | some sp => !sp.Done
  | none => false

/-- The request object Guide sends (guider.py lines 440-450). -/
def guideRequest (settlePixels settleTime settleTimeout : ℚ) : JValue :=
  _make_jsonrpc "guide"
    (.arr [.obj [("pixels", .num settlePixels), ("time", .num settleTime),
                 ("timeout", .num settleTimeout)],
           .bool false])

/-- Guider.Guide from guider.py lines 421-455 (after the connection check).
The rpc argument is the outcome of the blocking Call round trip. Returns the
overall outcome, the state left behind, and the request sent (none if the
method raised before sending anything). -/
def Guide (st : GuiderState) (settlePixels settleTime settleTimeout : ℚ)
    (rpc : Except String JValue) :
    Except String Unit × GuiderState × Option JValue :=
  if settleBlocked st.Settle then
    (.error "cannot guide while settling", st, none)
  else
    let s : SettleProgress :=
      { Done := false, Distance := 0, SettlePx := settlePixels, Time := 0
        SettleTime := settleTime, Status := 0, Error := none }
    let st1 := { st with Settle := some s }
    match rpc with
    | .ok _ => (.ok (), { st1 with settle_px := settlePixels },
                some (guideRequest settlePixels settleTime settleTimeout))
    | .error e => (.error e, { st1 with Settle := none },
                   some (guideRequest settlePixels settleTime settleTimeout))

/-- The request object Dither sends (guider.py lines 480-491). -/
def ditherRequest (ditherPixels settlePixels settleTime settleTimeout : ℚ) : JValue :=
  _make_jsonrpc "dither"
    (.arr [.num ditherPixels, .bool false,
           .obj [("pixels", .num settlePixels), ("time", .num settleTime),
                 ("timeout", .num settleTimeout)]])

/-- Guider.Dither from guider.py lines 457-496 (after the connection check),
modelled like Guide; the pre-installed Distance is ditherPixels. -/
def Dither (st : GuiderState) (ditherPixels settlePixels settleTime settleTimeout : ℚ)
    (rpc : Except String JValue) :
    Except String Unit × GuiderState × Option JValue :=
  if settleBlocked st.Settle then
    (.error "cannot dither while settling", st, none)
  else
    let s : SettleProgress :=
      { Done := false, Distance := ditherPixels, SettlePx := settlePixels, Time := 0
        SettleTime := settleTime, Status := 0, Error := none }
    let st1 := { st with Settle := some s }
    match rpc with
    | .ok _ => (.ok (), { st1 with settle_px := settlePixels },
                some (ditherRequest ditherPixels settlePixels settleTime settleTimeout))
    | .error e => (.error e, { st1 with Settle := none },
                   some (ditherRequest ditherPixels settlePixels settleTime settleTimeout))

/-- The byte-scanning loop of _Conn.ReadLine (guider.py lines 138-150): feed one
received chunk through the framer, given the residual buffer. A byte equal to
13 or 10 closes the accumulated line, which is emitted only if nonempty;
residual bytes are returned as the new buffer. -/
def feed (buf s : List ℕ) : List (List ℕ) × List ℕ :=
  match s with
  | [] => ([], buf)
  | c :: rest =>
    if c = 13 ∨ c = 10 then
      let r := feed [] rest
      (if buf = [] then r.1 else buf :: r.1, r.2)
    else
      feed (buf ++ [c]) rest

/-- Feeding a sequence of received chunks through the framer, collecting all
emitted lines and the final residual buffer. -/
def feedChunks (buf : List ℕ) (chunks : List (List ℕ)) : List (List ℕ) × List ℕ :=
  match chunks with
  | [] => ([], buf)
  | s :: rest =>
    let r := feed buf s
    let r2 := feedChunks r.2 rest
    (r.1 ++ r2.1, r2.2)

/-- The byte values of the characters of a string (s.encode() of guider.py line
155; code points and UTF-8 bytes agree on the ASCII range the protocol uses). -/
def strBytes (s : String) : List ℕ := s.toList.map Char.toNat

/-- The send loop of _Conn.WriteLine (guider.py lines 156-161). The plan lists
the byte counts the socket accepts on successive send calls (capped by the
remaining length); a zero-byte send raises, and an exhausted plan while bytes
remain means the loop never finishes inside the model. On success the value is
the list of chunks actually written, in order. -/
def sendLoop (b : List ℕ) (totsent : ℕ) : List ℕ → Option (List (List ℕ))
  | [] => if totsent < b.length then none else some []
  | k :: plan =>
    if totsent < b.length then
      let sent := min k (b.length - totsent)
      if sent = 0 then none
      else
        match sendLoop b (totsent + sent) plan with
        | none => none
        | some chunks => some (((b.drop totsent).take sent) :: chunks)
    else some []

/-- _Conn.WriteLine from guider.py lines 153-161: encode the string and loop
over partial sends until everything is written. -/
def WriteLine (s : String) (plan : List ℕ) : Option (List (List ℕ)) :=
  sendLoop (strBytes s) 0 plan

/-- The line Guider.Call passes to WriteLine (guider.py line 404): the
serialized request with an explicit CRLF appended by Call itself. -/
def callLine (s : String) : String := s ++ "\r\n"

/-- The dispatch step of Guider._worker for one parsed line (guider.py lines
339-346): a line with a jsonrpc property is stored in the pending-response slot
unconditionally; anything else is handled as an event. The decoded event is
passed alongside the raw JSON since event-field decoding is not at issue. -/
noncomputable def worker_dispatch (st : GuiderState) (j : JValue) (ev : Event) : GuiderState :=
  if j.hasKey "jsonrpc" then { st with response := some j } else handle_event st ev

/-- The receive phase of Guider.Call (guider.py lines 406-410): the caller
returns as soon as the response slot is nonempty, consuming and clearing it;
with an empty slot it stays blocked (none). -/
def call_receive (st : GuiderState) : Option (JValue × GuiderState) :=
  match st.response with
  | some r => some (r, { st with response := none })
  | none => none

/-- The params object Guider.CaptureSingleFrame builds (guider.py lines
696-708): only the keys the caller set, in insertion order, with roi emitted as
subframe. -/
def sfParams (exposure binning gain : Option ℤ) (roi : Option Subframe)
    (path : Option String) (save : Option Bool) : List (String × JValue) :=
  (match exposure with | some v => [("exposure", JValue.num (v : ℚ))] | none => []) ++
  (match binning with | some v => [("binning", JValue.num (v : ℚ))] | none => []) ++
  (match gain with | some v => [("gain", JValue.num (v : ℚ))] | none => []) ++
  (match roi with
   | some r => [("subframe", JValue.arr [JValue.num (r.x : ℚ), JValue.num (r.y : ℚ),
                                         JValue.num (r.width : ℚ), JValue.num (r.height : ℚ)])]
   | none => []) ++
  (match path with | some v => [("path", JValue.str v)] | none => []) ++
  (match save with | some v => [("save", JValue.bool v)] | none => [])

/-- Guider.CaptureSingleFrame from guider.py lines 682-711: the path/save
validation, the params object, the clearing of single_frame, and the request
sent (none when the validation raised before sending). -/
def CaptureSingleFrame (st : GuiderState) (exposure binning gain : Option ℤ)
    (roi : Option Subframe) (path : Option String) (save : Option Bool) :
    Except String Unit × GuiderState × Option JValue :=
  if path.isSome && (save == some false) then
    (.error "invalid arguments: when save is False, the path argument should be omitted",
     st, none)
  else
    (.ok (), { st with single_frame := none },
     some (_make_jsonrpc "capture_single_frame"
             (JValue.obj (sfParams exposure binning gain roi path save))))

/-- Sum of squares of a list of samples. -/
def sqSum (xs : List ℚ) : ℚ := (xs.map (fun x => x ^ 2)).sum

/-- Peak absolute value of a list of samples (0 for the empty list). -/
def peakAbs (xs : List ℚ) : ℚ := (xs.map (fun x => |x|)).foldl max 0

lemma _Accum.add_eq (b : _Accum) (x : ℚ) :
    b.Add x = ⟨b.n + 1, b.a + (x - b.a) / ((b.n : ℚ) + 1),
               b.q + (x - (b.a + (x - b.a) / ((b.n : ℚ) + 1))) * (x - b.a),
               max b.peak |x|⟩ := by
  show (⟨b.n + 1, _, _, if |x| > b.peak then |x| else b.peak⟩ : _Accum) = _
  have hpk : (if |x| > b.peak then |x| else b.peak) = max b.peak |x| := by
    rcases le_or_lt |x| b.peak with h | h
    · rw [if_neg (not_lt.mpr h), max_eq_left h]
    · rw [if_pos h, max_eq_right h.le]
  simp [hpk]

lemma peakAbs_append (xs : List ℚ) (x : ℚ) :
    peakAbs (xs ++ [x]) = max (peakAbs xs) |x| := by
  simp [peakAbs, List.foldl_append]

lemma addList_append (xs : List ℚ) (x : ℚ) :
    _Accum.addList _Accum.init (xs ++ [x]) =
      (_Accum.addList _Accum.init xs).Add x := by
  simp [_Accum.addList, List.foldl_append]

/-- The Welford invariant: after folding Add over xs from a fresh accumulator,
n is the sample count, a is the exact mean, q is the exact sum of squared
deviations (written in its expanded form), and peak is the peak absolute value.
The divisions are by zero for xs = [], where ℚ division by zero yields 0, making
the statement uniform. -/
lemma addList_invariant (xs : List ℚ) :
    (_Accum.addList _Accum.init xs).n = xs.length ∧
    (_Accum.addList _Accum.init xs).a = xs.sum / (xs.length : ℚ) ∧
    (_Accum.addList _Accum.init xs).q = sqSum xs - xs.sum ^ 2 / (xs.length : ℚ) ∧
    (_Accum.addList _Accum.init xs).peak = peakAbs xs := by
  induction xs using List.reverseRecOn with
  | nil => simp [_Accum.addList, _Accum.init, sqSum, peakAbs]
  | append_singleton l x ih =>
    obtain ⟨hn, ha, hq, hp⟩ := ih
    rw [addList_append, _Accum.add_eq, hn, ha, hq, hp]
    rcases Nat.eq_zero_or_pos l.length with h0 | hpos
    · have hl : l = [] := List.length_eq_zero.mp h0
      subst hl
      refine ⟨by simp, by simp, by simp [sqSum], by simp [peakAbs]⟩
    · have hne : ((l.length : ℚ)) ≠ 0 := by
        exact_mod_cast Nat.pos_iff_ne_zero.mp hpos
    
      have hne1 : ((l.length : ℚ)) + 1 ≠ 0 := by positivity
      refine ⟨by simp, ?_, ?_, ?_⟩
      · show l.sum / (l.length : ℚ) + (x - l.sum / (l.length : ℚ)) / ((l.length : ℚ) + 1) =
          (l ++ [x]).sum / (((l ++ [x]).length : ℕ) : ℚ)
        rw [List.sum_append, List.length_append]
        push_cast
        simp only [List.sum_cons, List.sum_nil, List.length_cons, List.length_nil]
        field_simp
        ring
      · show sqSum l - l.sum ^ 2 / (l.length : ℚ) +
            (x - (l.sum / (l.length : ℚ) + (x - l.sum / (l.length : ℚ)) / ((l.length : ℚ) + 1))) *
              (x - l.sum / (l.length : ℚ)) =
          sqSum (l ++ [x]) - (l ++ [x]).sum ^ 2 / (((l ++ [x]).length : ℕ) : ℚ)
        rw [List.sum_append, List.length_append]
        have hsq : sqSum (l ++ [x]) = sqSum l + x ^ 2 := by
          simp [sqSum]
        rw [hsq]
        push_cast
        simp only [List.sum_cons, List.sum_nil, List.length_cons, List.length_nil]
        field_simp
        ring
      · rw [peakAbs_append]

lemma sum_sq_dev (xs : List ℚ) (m : ℚ) :
    (xs.map (fun x => (x - m) ^ 2)).sum
      = sqSum xs - 2 * m * xs.sum + (xs.length : ℚ) * m ^ 2 := by
  induction xs with
  | nil => simp [sqSum]
  | cons a l ih =>
    simp only [List.map_cons, List.sum_cons, sqSum, List.length_cons] at ih ⊢
    rw [ih]
    push_cast
    ring

lemma foldl_max_choice (l : List ℚ) (i : ℚ) :
    l.foldl max i = i ∨ ∃ x ∈ l, l.foldl max i = x := by
  induction l generalizing i with
  | nil => exact Or.inl rfl
  | cons b t ih =>
    rcases ih (max i b) with h | ⟨x, hx, hfx⟩
    · rcases max_choice i b with hm | hm
      · exact Or.inl (by simpa [hm] using h)
      · exact Or.inr ⟨b, by simp, by simpa [hm] using h⟩
    · exact Or.inr ⟨x, by simp [hx], by simpa using hfx⟩

lemma le_foldl_max (l : List ℚ) (i : ℚ) :
    i ≤ l.foldl max i ∧ ∀ x ∈ l, x ≤ l.foldl max i := by
  induction l generalizing i with
  | nil => simp
  | cons b t ih =>
    obtain ⟨h1, h2⟩ := ih (max i b)
    refine ⟨le_trans (le_max_left i b) h1, ?_⟩
    intro x hx
    rcases List.mem_cons.mp hx with rfl | hx
    · exact le_trans (le_max_right i x) h1
    · exact h2 x hx

lemma peakAbs_bound (xs : List ℚ) : ∀ x ∈ xs, |x| ≤ peakAbs xs := by
  intro x hx
  exact (le_foldl_max (xs.map (fun y => |y|)) 0).2 |x| (List.mem_map_of_mem _ hx)

lemma peakAbs_attained (xs : List ℚ) (h : xs ≠ []) : ∃ x ∈ xs, peakAbs xs = |x| := by
  rcases foldl_max_choice (xs.map (fun y => |y|)) 0 with h0 | ⟨y, hy, hfy⟩
  · obtain ⟨a, ha⟩ := List.exists_mem_of_ne_nil xs h
    refine ⟨a, ha, le_antisymm ?_ ?_⟩
    · show peakAbs xs ≤ |a|
      rw [peakAbs, h0]
      exact abs_nonneg a
    · exact peakAbs_bound xs a ha
  · obtain ⟨x, hx, rfl⟩ := List.mem_map.mp hy
    exact ⟨x, hx, hfy⟩

/-- C2: for every nonempty sequence of samples folded into a fresh accumulator
by Add, Mean is exactly the arithmetic mean, Stdev is exactly the square root
of the mean squared deviation from the mean, and Peak is exactly the maximal
absolute value (bounding every sample and attained by one of them); for a fresh
accumulator (n = 0) Stdev is 0; and immediately after Reset, Mean, Stdev and
Peak are all 0. Exact rational arithmetic throughout. -/
theorem accum_exact_stats (xs : List ℚ) (h : xs ≠ []) :
    (_Accum.addList _Accum.init xs).Mean = xs.sum / (xs.length : ℚ) ∧
    (_Accum.addList _Accum.init xs).Stdev =
      Real.sqrt (((xs.map (fun x => (x - xs.sum / (xs.length : ℚ)) ^ 2)).sum
          / (xs.length : ℚ) : ℚ) : ℝ) ∧
    (_Accum.addList _Accum.init xs).Peak = peakAbs xs ∧
    (∀ x ∈ xs, |x| ≤ (_Accum.addList _Accum.init xs).Peak) ∧
    (∃ x ∈ xs, (_Accum.addList _Accum.init xs).Peak = |x|) ∧
    _Accum.init.Stdev = 0 ∧
    (∀ b : _Accum, b.Reset.Mean = 0 ∧ b.Reset.Stdev = 0 ∧ b.Reset.Peak = 0) := by
  obtain ⟨hn, ha, hq, hp⟩ := addList_invariant xs
  have hlen : ((xs.length : ℕ) : ℚ) ≠ 0 := by
    have := List.length_pos.mpr h
    exact_mod_cast Nat.pos_iff_ne_zero.mp this
  have hvar : (_Accum.addList _Accum.init xs).q / ((xs.length : ℕ) : ℚ) =
      (xs.map (fun x => (x - xs.sum / (xs.length : ℚ)) ^ 2)).sum / (xs.length : ℚ) := by
    rw [hq, sum_sq_dev]
    field_simp
    ring
  refine ⟨by rw [_Accum.Mean, ha], ?_, by rw [_Accum.Peak, hp], ?_, ?_, ?_, ?_⟩
  · rw [_Accum.Stdev, if_pos (by rw [hn]; exact List.length_pos.mpr h), hn, hvar]
  · intro x hx
    rw [_Accum.Peak, hp]
    exact peakAbs_bound xs x hx
  · obtain ⟨x, hx, hpx⟩ := peakAbs_attained xs h
    exact ⟨x, hx, by rw [_Accum.Peak, hp, hpx]⟩
  · rw [_Accum.Stdev]
    simp [_Accum.init]
  · intro b
    refine ⟨rfl, ?_, rfl⟩
    rw [_Accum.Reset, _Accum.Stdev]
    simp [_Accum.init]

/-- Witness for accum_exact_stats at the concrete sample list [3, -1]: the mean
is 1 and the peak is 3. -/
theorem accum_exact_stats_witness :
    (_Accum.addList _Accum.init [(3 : ℚ), -1]).Mean = 1 ∧
    (_Accum.addList _Accum.init [(3 : ℚ), -1]).Peak = 3 := by
  obtain ⟨h1, _, h3, _⟩ := accum_exact_stats [(3 : ℚ), -1] (by decide)
  constructor
  · rw [h1]; norm_num
  · rw [h3]; norm_num [peakAbs]

/-- True for the events whose handler resets the accumulators and restarts the
stats window (StartGuiding and SettleDone). -/
def Event.isReset : Event → Bool
  | .StartGuiding => true
  | .SettleDone _ _ => true
  | _ => false

/-- True exactly for the SettleBegin event. -/
def Event.isSettleBegin : Event → Bool
  | .SettleBegin => true
  | _ => false

/-- The pair of raw guide distances carried by a GuideStep event. -/
def Event.sampleOf : Event → Option (ℚ × ℚ)
  | .GuideStep ra dec _ => some (ra, dec)
  | _ => none

/-- The events after the most recent StartGuiding or SettleDone of a sequence
(the whole sequence when neither occurs). -/
def afterLastReset (evs : List Event) : List Event :=
  evs.foldl (fun acc e => if e.isReset then [] else acc ++ [e]) []

/-- Formalizes the sample-selection rule in the words of claim C1, applied to
the events preceding the final SettleDone: the GuideStep samples received
strictly after the most recent preceding StartGuiding or SettleDone and not
between the SettleBegin and the final SettleDone. -/
def claimSamples (pre : List Event) : List (ℚ × ℚ) :=
  ((afterLastReset pre).takeWhile (fun e => !e.isSettleBegin)).filterMap Event.sampleOf

/-- C1 counterexample: for the event sequence StartGuiding, GuideStep(1, 1),
SettleBegin, SettleDone, the sample (1, 1) qualifies under the selection rule
stated by the claim, yet the Stats stored after processing the SettleDone is
the snapshot of freshly reset accumulators (its peak_ra is 0, not the 1 the
claim demands): the SettleDone handler clears both accumulators before taking
the snapshot, so the stored Stats does not reflect the pre-settle samples. -/
theorem settledone_stats_cex :
    claimSamples [Event.StartGuiding, Event.GuideStep 1 1 1, Event.SettleBegin]
      = [(1, 1)] ∧
    (processEvents [Event.StartGuiding, Event.GuideStep 1 1 1, Event.SettleBegin,
        Event.SettleDone 0 none]).Stats ≠
      _accum_get_stats (_Accum.addList _Accum.init [1]) (_Accum.addList _Accum.init [1]) := by
  constructor
  · decide
  · intro hEq
    have hpk := congrArg GuideStats.peak_ra hEq
    have hL : (processEvents [Event.StartGuiding, Event.GuideStep 1 1 1, Event.SettleBegin,
        Event.SettleDone 0 none]).Stats.peak_ra = ((0 : ℚ) : ℝ) := by
      simp [processEvents, handle_event, _accum_get_stats, _Accum.Peak, _Accum.Reset,
        _Accum.init]
    have hR : (_accum_get_stats (_Accum.addList _Accum.init [1])
        (_Accum.addList _Accum.init [1])).peak_ra = ((1 : ℚ) : ℝ) := by
      norm_num [_accum_get_stats, _Accum.Peak, _Accum.addList, _Accum.Add, _Accum.init]
    rw [hL, hR] at hpk
    norm_num at hpk

/-- C1 amended: after the reader processes any prefix ending in SettleDone, the
session Stats is the snapshot of freshly cleared accumulators: it reflects
exactly the (empty set of) GuideStep samples received strictly after this final
SettleDone, because the SettleDone handler resets both accumulators before
storing their snapshot; both accumulators are cleared and accum_active is true
again. -/
theorem settledone_stats_cleared (pre : List Event) (status : ℤ) (err : Option String) :
    (processEvents (pre ++ [Event.SettleDone status err])).Stats =
      _accum_get_stats _Accum.init _Accum.init ∧
    (processEvents (pre ++ [Event.SettleDone status err])).accum_ra = _Accum.init ∧
    (processEvents (pre ++ [Event.SettleDone status err])).accum_dec = _Accum.init ∧
    (processEvents (pre ++ [Event.SettleDone status err])).accum_active = true := by
  have hsplit : processEvents (pre ++ [Event.SettleDone status err]) =
      handle_event (processEvents pre) (Event.SettleDone status err) := by
    simp [processEvents, List.foldl_append]
  rw [hsplit]
  exact ⟨rfl, rfl, rfl, rfl⟩

/-- C3: CheckSettling raises NotSettling when no SettleProgress is stored; with
a stored Done=true progress it returns Done=true with the stored Status and
Error and clears the slot, so a second call without a new settle raises
NotSettling again (Done=true is returned at most once per settle cycle); with a
stored Done=false progress it returns a Done=false snapshot taking Distance,
Time and SettleTime from the stored progress — which the latest Settling event
fills from its own fields, per the last conjunct — and SettlePx from the
session settle_px, leaving the slot in place. -/
theorem check_settling_contract (st : GuiderState) :
    (st.Settle = none → CheckSettling st = .error "not settling") ∧
    (∀ sp : SettleProgress, st.Settle = some sp → sp.Done = true →
      CheckSettling st =
        .ok ({ Done := true, Status := sp.Status, Error := sp.Error },
             { st with Settle := none }) ∧
      ({ st with Settle := none } : GuiderState).Settle = none ∧
      CheckSettling { st with Settle := none } = .error "not settling") ∧
    (∀ sp : SettleProgress, st.Settle = some sp → sp.Done = false →
      CheckSettling st =
        .ok ({ Done := false, Distance := sp.Distance, SettlePx := st.settle_px,
               Time := sp.Time, SettleTime := sp.SettleTime }, st)) ∧
    (∀ d t stime : ℚ, (handle_event st (.Settling d t stime)).Settle =
      some { Done := false, Distance := d, SettlePx := st.settle_px, Time := t,
             SettleTime := stime, Status := 0, Error := none }) := by
  refine ⟨?_, ?_, ?_, ?_⟩
  · intro h
    simp [CheckSettling, h]
  · intro sp h hd
    refine ⟨by simp [CheckSettling, h, hd], rfl, by simp [CheckSettling]⟩
  · intro sp h hd
    simp [CheckSettling, h, hd]
  · intro d t stime
    rfl

/-- Witness for check_settling_contract: a stored Done=true settle progress is
returned once, with the slot cleared. -/
theorem check_settling_contract_witness :
    CheckSettling { GuiderState.init with
        Settle := some { Done := true, Status := 5, Error := some "err" } } =
      .ok ({ Done := true, Status := 5, Error := some "err" },
           { GuiderState.init with Settle := none }) ∧
    CheckSettling { GuiderState.init with Settle := none } = .error "not settling" := by
  have h := (check_settling_contract { GuiderState.init with
      Settle := some { Done := true, Status := 5, Error := some "err" } }).2.1
    { Done := true, Status := 5, Error := some "err" } rfl rfl
  exact ⟨h.1, h.2.2⟩

/-- C10: whenever CheckSettling returns a result with Done = true, the returned
Distance, SettlePx, Time and SettleTime are all 0 (the result is built from a
fresh SettleProgress and only Done, Status and Error are assigned), regardless
of any earlier Settling events; Status and Error are copied from the stored
settle progress. -/
theorem check_settling_done_zeroed (st : GuiderState) (ret : SettleProgress)
    (st2 : GuiderState) (h : CheckSettling st = .ok (ret, st2)) (hd : ret.Done = true) :
    ret.Distance = 0 ∧ ret.SettlePx = 0 ∧ ret.Time = 0 ∧ ret.SettleTime = 0 ∧
    ∃ sp : SettleProgress, st.Settle = some sp ∧ ret.Status = sp.Status ∧
      ret.Error = sp.Error := by
  cases hsp : st.Settle with
  | none => simp [CheckSettling, hsp] at h
  | some sp =>
    by_cases hD : sp.Done
    · rw [CheckSettling, hsp] at h
      simp only [hD, if_true, Except.ok.injEq, Prod.mk.injEq] at h
      obtain ⟨h1, _⟩ := h
      subst h1
      exact ⟨rfl, rfl, rfl, rfl, sp, rfl, rfl, rfl⟩
    · rw [CheckSettling, hsp] at h
      simp [hD] at h
      obtain ⟨h1, _⟩ := h
      subst h1
      simp at hd

/-- Witness for check_settling_done_zeroed: concrete Done=true return with all
distance and time fields zero. -/
theorem check_settling_done_zeroed_witness :
    ({ Done := true, Status := 2, Error := some "e" } : SettleProgress).Distance = 0 ∧
    ({ Done := true, Status := 2, Error := some "e" } : SettleProgress).SettlePx = 0 ∧
    ({ Done := true, Status := 2, Error := some "e" } : SettleProgress).Time = 0 ∧
    ({ Done := true, Status := 2, Error := some "e" } : SettleProgress).SettleTime = 0 := by
  have h := check_settling_done_zeroed
    { GuiderState.init with Settle := some { Done := true, Status := 2, Error := some "e" } }
    { Done := true, Status := 2, Error := some "e" }
    { GuiderState.init with Settle := none } rfl rfl
  exact ⟨h.1, h.2.1, h.2.2.1, h.2.2.2.1⟩

/-- The completed-but-unread settle progress used in the C4 counterexample. -/
def doneSP : SettleProgress := { Done := true, Status := 7, Error := none }

/-- C4 counterexample: with a completed-but-unread SettleProgress stored
(Done = true, which passes the guard), a failing guide RPC leaves the Settle
slot cleared to none instead of restoring its pre-call value some doneSP: the
rollback in the source assigns None unconditionally. -/
theorem guide_rollback_cex :
    (Guide { GuiderState.init with Settle := some doneSP } 1 2 3
        (.error "rpc failed")).2.1.Settle = none ∧
    ({ GuiderState.init with Settle := some doneSP } : GuiderState).Settle = some doneSP ∧
    (Guide { GuiderState.init with Settle := some doneSP } 1 2 3
        (.error "rpc failed")).2.1.Settle ≠
      ({ GuiderState.init with Settle := some doneSP } : GuiderState).Settle := by
  refine ⟨rfl, rfl, ?_⟩
  intro hEq
  have h0 : (Guide { GuiderState.init with Settle := some doneSP } 1 2 3
      (.error "rpc failed")).2.1.Settle = none := rfl
  rw [h0] at hEq
  simp at hEq

/-- C4 amended: Guide with a pending (Done=false) SettleProgress stored fails
without sending anything and leaves the state unchanged; otherwise it
pre-installs a pending SettleProgress (Done=false, SettlePx = settlePixels,
SettleTime = settleTime) and sends the guide request; on RPC success the
outcome is success and settle_px is set to settlePixels; on RPC failure the
error propagates and the Settle slot is cleared to none — which coincides with
the pre-call value only when the slot was empty before the call. The same
contract holds for Dither with pre-installed Distance = ditherPixels. -/
theorem guide_dither_contract (st : GuiderState) (dpx px t tmo : ℚ)
    (e : String) (v : JValue) :
    (settleBlocked st.Settle = true →
      Guide st px t tmo (.ok v) = (.error "cannot guide while settling", st, none) ∧
      Guide st px t tmo (.error e) = (.error "cannot guide while settling", st, none) ∧
      Dither st dpx px t tmo (.ok v) = (.error "cannot dither while settling", st, none) ∧
      Dither st dpx px t tmo (.error e) = (.error "cannot dither while settling", st, none)) ∧
    (settleBlocked st.Settle = false →
      Guide st px t tmo (.ok v) =
        (.ok (), { st with
                     Settle := some { Done := false, Distance := 0, SettlePx := px,
                                      Time := 0, SettleTime := t, Status := 0,
                                      Error := none },
                     settle_px := px },
         some (guideRequest px t tmo)) ∧
      Guide st px t tmo (.error e) =
        (.error e, { st with Settle := none }, some (guideRequest px t tmo)) ∧
      Dither st dpx px t tmo (.ok v) =
        (.ok (), { st with
                     Settle := some { Done := false, Distance := dpx, SettlePx := px,
                                      Time := 0, SettleTime := t, Status := 0,
                                      Error := none },
                     settle_px := px },
         some (ditherRequest dpx px t tmo)) ∧
      Dither st dpx px t tmo (.error e) =
        (.error e, { st with Settle := none }, some (ditherRequest dpx px t tmo))) := by
  constructor
  · intro h
    exact ⟨by simp [Guide, h], by simp [Guide, h], by simp [Dither, h], by simp [Dither, h]⟩
  · intro h
    exact ⟨by simp [Guide, h], by simp [Guide, h], by simp [Dither, h], by simp [Dither, h]⟩

/-- Witness for guide_dither_contract: from the fresh state (no settle pending)
a successful guide RPC installs the pending SettleProgress and records
settle_px. -/
theorem guide_dither_contract_witness :
    Guide GuiderState.init 2 10 100 (.ok (JValue.num 0)) =
      (.ok (), { GuiderState.init with
                   Settle := some { Done := false, Distance := 0, SettlePx := 2,
                                    Time := 0, SettleTime := 10, Status := 0,
                                    Error := none },
                   settle_px := 2 },
       some (guideRequest 2 10 100)) := by
  exact ((guide_dither_contract GuiderState.init 0 2 10 100 "e" (JValue.num 0)).2 rfl).1

lemma feed_append (s t buf : List ℕ) :
    feed buf (s ++ t) =
      ((feed buf s).1 ++ (feed (feed buf s).2 t).1, (feed (feed buf s).2 t).2) := by
  induction s generalizing buf with
  | nil => simp [feed]
  | cons c rest ih =>
    by_cases hc : c = 13 ∨ c = 10
    · simp only [List.cons_append, feed, if_pos hc, List.append_eq]
      rw [ih []]
      by_cases hb : buf = [] <;> simp [hb]
    · simp only [List.cons_append, feed, if_neg hc, List.append_eq]
      exact ih (buf ++ [c])

lemma feed_lines_ne_nil (s : List ℕ) : ∀ buf, ∀ l ∈ (feed buf s).1, l ≠ [] := by
  induction s with
  | nil =>
    intro buf l hl
    simp [feed] at hl
  | cons c rest ih =>
    intro buf l hl
    by_cases hc : c = 13 ∨ c = 10
    · simp only [feed, if_pos hc] at hl
      by_cases hb : buf = []
      · simp only [hb, if_pos rfl] at hl
        exact ih [] l hl
      · simp only [hb, if_neg hb] at hl
        rcases List.mem_cons.mp hl with rfl | hl2
        · exact hb
        · exact ih [] l hl2
    · simp only [feed, if_neg hc] at hl
      exact ih (buf ++ [c]) l hl

/-- C5: feeding a byte stream to the framer in arbitrary chunks yields exactly
the lines and residual buffer obtained by feeding the whole stream at once
(every CR or LF byte closes the accumulated line, lines are emitted only if
nonempty, and unterminated bytes carry over), and every emitted line is
nonempty. -/
theorem framer_chunking (buf : List ℕ) (chunks : List (List ℕ)) :
    feedChunks buf chunks = feed buf chunks.flatten ∧
    ∀ l ∈ (feedChunks buf chunks).1, l ≠ [] := by
  have hmain : ∀ (cs : List (List ℕ)) (b : List ℕ), feedChunks b cs = feed b cs.flatten := by
    intro cs
    induction cs with
    | nil =>
      intro b
      simp [feedChunks, feed]
    | cons s rest ih =>
      intro b
      simp only [feedChunks, List.flatten_cons, ih]
      rw [feed_append]
  refine ⟨hmain chunks buf, ?_⟩
  intro l hl
  rw [hmain chunks buf] at hl
  exact feed_lines_ne_nil _ buf l hl

/-- Witness for framer_chunking: the stream a CR LF b split as [a CR], [LF b]
yields the single complete line [a] (bytes 97, 98 for a, b) and residue [98],
and the emitted line is nonempty. -/
theorem framer_chunking_witness :
    feedChunks [] [[97, 13], [10, 98]] = feed [] ([[97, 13], [10, 98]].flatten) ∧
    [97] ∈ (feedChunks [] [[97, 13], [10, 98]]).1 ∧ ([97] : List ℕ) ≠ [] :=
  ⟨(framer_chunking [] [[97, 13], [10, 98]]).1, by decide,
   (framer_chunking [] [[97, 13], [10, 98]]).2 [97] (by decide)⟩

/-- C6: _make_jsonrpc produces an object carrying the method and id 1; the
params field is omitted when the argument is nil (null), kept verbatim when it
is a list or an object, and wrapped in a one-element array for any other
value. -/
theorem make_jsonrpc_spec (m : String) (p : JValue) :
    (_make_jsonrpc m p).get "method" = some (.str m) ∧
    (_make_jsonrpc m p).get "id" = some (.num 1) ∧
    (p = .null → (_make_jsonrpc m p).get "params" = none) ∧
    (∀ xs, p = .arr xs → (_make_jsonrpc m p).get "params" = some (.arr xs)) ∧
    (∀ kvs, p = .obj kvs → (_make_jsonrpc m p).get "params" = some (.obj kvs)) ∧
    (p.isContainer = false → p ≠ .null →
      (_make_jsonrpc m p).get "params" = some (.arr [p])) := by
  cases p <;> simp [_make_jsonrpc, JValue.get, lookupKey, JValue.isContainer]

/-- Witness for make_jsonrpc_spec: a scalar params value 7 is wrapped as a
one-element array, and method and id are present. -/
theorem make_jsonrpc_spec_witness :
    (_make_jsonrpc "get_exposure" (.num 7)).get "params" = some (.arr [.num 7]) ∧
    (_make_jsonrpc "get_exposure" (.num 7)).get "method" = some (.str "get_exposure") :=
  ⟨(make_jsonrpc_spec "get_exposure" (.num 7)).2.2.2.2.2 rfl (by simp),
   (make_jsonrpc_spec "get_exposure" (.num 7)).1⟩

lemma sendLoop_flatten (plan : List ℕ) : ∀ (b : List ℕ) (totsent : ℕ)
    (chunks : List (List ℕ)), sendLoop b totsent plan = some chunks →
    chunks.flatten = b.drop totsent := by
  induction plan with
  | nil =>
    intro b totsent chunks h
    rw [sendLoop] at h
    by_cases hlt : totsent < b.length
    · rw [if_pos hlt] at h
      cases h
    · rw [if_neg hlt] at h
      cases h
      simp [List.drop_eq_nil_of_le (Nat.le_of_not_lt hlt)]
  | cons k plan ih =>
    intro b totsent chunks h
    rw [sendLoop] at h
    by_cases hlt : totsent < b.length
    · rw [if_pos hlt] at h
      by_cases h0 : min k (b.length - totsent) = 0
      · rw [if_pos h0] at h
        cases h
      · rw [if_neg h0] at h
        cases hrec : sendLoop b (totsent + min k (b.length - totsent)) plan with
        | none =>
          rw [hrec] at h
          cases h
        | some cs =>
          rw [hrec] at h
          cases h
          have hj := ih b (totsent + min k (b.length - totsent)) cs hrec
          have hdd : (b.drop totsent).drop (min k (b.length - totsent)) =
              b.drop (totsent + min k (b.length - totsent)) := by
            rw [List.drop_drop, Nat.add_comm]
          rw [List.flatten_cons, hj, ← hdd]
          exact List.take_append_drop _ _
    · rw [if_neg hlt] at h
      cases h
      simp [List.drop_eq_nil_of_le (Nat.le_of_not_lt hlt)]

/-- C7 counterexample: WriteLine on the one-character string a, with a socket
accepting up to 5 bytes per send, writes exactly the single chunk [97] — the
byte of the string alone. The claim as stated predicts the bytes 97, 13, 10
(the string followed by CR LF), which is not what WriteLine writes. -/
theorem writeline_crlf_cex :
    WriteLine "a" [5] = some [[97]] ∧
    ([[97]] : List (List ℕ)).flatten ≠ strBytes "a" ++ [13, 10] := by
  constructor
  · rfl
  · decide

/-- C7 amended: WriteLine writes exactly the bytes of its argument string,
looping over partial sends until everything is written; the CR LF terminator is
not appended by WriteLine itself but by Call, which passes the serialized
request with an explicit CRLF suffix (callLine), so the complete line written
for a request body s is the bytes of s followed by 13, 10. -/
theorem writeline_exact (s : String) (plan : List ℕ) (chunks : List (List ℕ)) :
    (WriteLine s plan = some chunks → chunks.flatten = strBytes s) ∧
    (WriteLine (callLine s) plan = some chunks →
      chunks.flatten = strBytes s ++ [13, 10]) := by
  have happ : strBytes (callLine s) = strBytes s ++ [13, 10] := by
    rw [callLine, strBytes, strBytes]
    have hl : (s ++ "\x0d\n").toList = s.toList ++ "\x0d\n".toList := by
      simp [String.toList]
    rw [hl, List.map_append]
    congr 1
  constructor
  · intro h
    simpa using sendLoop_flatten plan (strBytes s) 0 chunks h
  · intro h
    have hj := sendLoop_flatten plan (strBytes (callLine s)) 0 chunks h
    rw [List.drop_zero, happ] at hj
    exact hj

/-- Witness for writeline_exact: the request line a CR LF written in one send
is exactly the bytes of a followed by 13, 10. -/
theorem writeline_exact_witness :
    ([[97, 13, 10]] : List (List ℕ)).flatten = strBytes "a" ++ [13, 10] :=
  (writeline_exact "a" [3] [[97, 13, 10]]).2 rfl

/-- The stray JSON-RPC response used in the C8 counterexample. -/
def strayResponse : JValue :=
  .obj [("jsonrpc", .str "2.0"), ("result", .num 42), ("id", .num 1)]

/-- C8 counterexample: processing a response line while no call is in flight
(the fresh state, with an empty response slot) stores the stray response in the
pending-response slot — it is retained, not ignored — and the next Call
consumes it as its result. -/
theorem stray_response_cex :
    (worker_dispatch GuiderState.init strayResponse Event.Other).response
      = some strayResponse ∧
    (worker_dispatch GuiderState.init strayResponse Event.Other).response ≠ none ∧
    (call_receive (worker_dispatch GuiderState.init strayResponse Event.Other)).map
        Prod.fst = some strayResponse := by
  refine ⟨rfl, ?_, rfl⟩
  intro h
  rw [show (worker_dispatch GuiderState.init strayResponse Event.Other).response
      = some strayResponse from rfl] at h
  cases h

/-- C8 amended: the reader stores every line carrying a jsonrpc property in the
pending-response slot unconditionally, whether or not a caller is waiting; a
stray response received while no call is in flight therefore remains in the
slot, and the next Call consumes it as its result. -/
theorem stray_response_retained (st : GuiderState) (j : JValue) (ev : Event)
    (h : j.hasKey "jsonrpc" = true) :
    (worker_dispatch st j ev).response = some j ∧
    (call_receive (worker_dispatch st j ev)).map Prod.fst = some j := by
  constructor
  · simp [worker_dispatch, h]
  · simp [worker_dispatch, call_receive, h]

/-- Witness for stray_response_retained at the concrete stray response and the
fresh state. -/
theorem stray_response_retained_witness :
    (worker_dispatch GuiderState.init strayResponse Event.StartGuiding).response
      = some strayResponse :=
  (stray_response_retained GuiderState.init strayResponse Event.StartGuiding rfl).1

lemma sfParams_keys (exposure binning gain : Option ℤ) (roi : Option Subframe)
    (path : Option String) (save : Option Bool) :
    lookupKey "exposure" (sfParams exposure binning gain roi path save)
      = exposure.map (fun v => JValue.num (v : ℚ)) ∧
    lookupKey "binning" (sfParams exposure binning gain roi path save)
      = binning.map (fun v => JValue.num (v : ℚ)) ∧
    lookupKey "gain" (sfParams exposure binning gain roi path save)
      = gain.map (fun v => JValue.num (v : ℚ)) ∧
    lookupKey "subframe" (sfParams exposure binning gain roi path save)
      = roi.map (fun r => JValue.arr [JValue.num (r.x : ℚ), JValue.num (r.y : ℚ),
          JValue.num (r.width : ℚ), JValue.num (r.height : ℚ)]) ∧
    lookupKey "path" (sfParams exposure binning gain roi path save)
      = path.map (fun v => JValue.str v) ∧
    lookupKey "save" (sfParams exposure binning gain roi path save)
      = save.map (fun v => JValue.bool v) ∧
    ∀ kv ∈ sfParams exposure binning gain roi path save,
      kv.1 ∈ (["exposure", "binning", "gain", "subframe", "path", "save"] : List String) := by
  rcases exposure with _ | e <;> rcases binning with _ | b <;> rcases gain with _ | g <;>
    rcases roi with _ | r <;> rcases path with _ | p2 <;> rcases save with _ | sv <;>
      simp [sfParams, lookupKey]

/-- C9: CaptureSingleFrame with a path provided while save is false fails with
InvalidArgument, sends nothing and leaves the whole state (including the stored
single_frame) unchanged; otherwise it clears single_frame and sends
capture_single_frame whose params object contains exactly the keys the caller
set, with roi emitted as subframe = [x, y, width, height]. -/
theorem capture_single_frame_spec (st : GuiderState) (exposure binning gain : Option ℤ)
    (roi : Option Subframe) (path : Option String) (save : Option Bool) :
    (path.isSome = true → save = some false →
      CaptureSingleFrame st exposure binning gain roi path save =
        (.error "invalid arguments: when save is False, the path argument should be omitted",
         st, none)) ∧
    ((path.isSome && (save == some false)) = false →
      CaptureSingleFrame st exposure binning gain roi path save =
        (.ok (), { st with single_frame := none },
         some (_make_jsonrpc "capture_single_frame"
                 (JValue.obj (sfParams exposure binning gain roi path save))))) ∧
    lookupKey "exposure" (sfParams exposure binning gain roi path save)
      = exposure.map (fun v => JValue.num (v : ℚ)) ∧
    lookupKey "subframe" (sfParams exposure binning gain roi path save)
      = roi.map (fun r => JValue.arr [JValue.num (r.x : ℚ), JValue.num (r.y : ℚ),
          JValue.num (r.width : ℚ), JValue.num (r.height : ℚ)]) ∧
    lookupKey "path" (sfParams exposure binning gain roi path save)
      = path.map (fun v => JValue.str v) ∧
    lookupKey "save" (sfParams exposure binning gain roi path save)
      = save.map (fun v => JValue.bool v) ∧
    lookupKey "binning" (sfParams exposure binning gain roi path save)
      = binning.map (fun v => JValue.num (v : ℚ)) ∧
    lookupKey "gain" (sfParams exposure binning gain roi path save)
      = gain.map (fun v => JValue.num (v : ℚ)) ∧
    ∀ kv ∈ sfParams exposure binning gain roi path save,
      kv.1 ∈ (["exposure", "binning", "gain", "subframe", "path", "save"] : List String) := by
  obtain ⟨h1, h2, h3, h4, h5, h6, h7⟩ :=
    sfParams_keys exposure binning gain roi path save
  refine ⟨?_, ?_, h1, h4, h5, h6, h2, h3, h7⟩
  · intro hp hs
    have hguard : (path.isSome && (save == some false)) = true := by
      rw [hp, hs]
      rfl
    simp [CaptureSingleFrame, hguard]
  · intro hguard
    simp [CaptureSingleFrame, hguard]

/-- Witness for capture_single_frame_spec: a call with exposure and a path while
save is true succeeds, clears single_frame, and sends the built params. -/
theorem capture_single_frame_spec_witness :
    CaptureSingleFrame GuiderState.init (some 1500) none none none (some "/a") (some true) =
      (.ok (), { GuiderState.init with single_frame := none },
       some (_make_jsonrpc "capture_single_frame"
               (JValue.obj (sfParams (some 1500) none none none (some "/a") (some true))))) :=
  ((capture_single_frame_spec GuiderState.init (some 1500) none none none (some "/a")
      (some true)).2.1 rfl)
